import Mathlib

/-!
Verification of `src/crawler.py` (sitemap discovery and bounded-concurrency
crawler) against its natural-language specification.

Shallow embedding conventions:
* Python `str` is modelled as `List Char` (`Str`); the Python string
  operations used by the source (`rstrip`, `startswith`, `endswith`,
  `lower`, `strip`, `split`, substring membership `in`) are re-implemented
  on `List Char` below, each next to the source operation it models.
* Network and filesystem effects are modelled by explicit parameters: the
  HTTP layer fetching sitemaps is a function `Str → SitemapDoc`, the
  robots.txt response is an `Option Str` (`none` covers both a non-200
  status and a raised request error, which the source treats identically),
  and the fetch client / persistence sink behaviour during the crawl is a
  function from attempt index to `AttemptResult`.
* The recursive sitemap resolution is embedded on the tree of fetched
  documents (`SitemapDoc`): a `loc` entry of a sitemap index carries the
  document its URL dereferences to, which is exactly the unfolding of the
  fetch environment along the recursion of `get_urls_from_sitemap`.
* The `asyncio` event loop is single-threaded and the counter updates in
  `process_url` happen between `await` points, so each `+= 1` is atomic;
  the final counters of `crawl_parallel` are therefore the sums of the
  per-URL deltas, independent of the interleaving.  The semaphore bound
  (claim C2) is modelled separately by a small-step transition relation.
-/

namespace Crawler

/-- Python strings, modelled as lists of characters. -/
abbrev Str := List Char

/-! ### Python string primitives used by the source -/

/-- `s.lower()`. -/
def lowerStr (s : Str) : Str := s.map Char.toLower

/-- `s.rstrip("/")` — remove all trailing slash characters. -/
def rstripSlash (s : Str) : Str :=
  (s.reverse.dropWhile (fun c => c == '/')).reverse

/-- `s.strip("/")` — remove leading and trailing slash characters
(used on `parsed_url.path` in `save_markdown_file`). -/
def stripSlashBoth (s : Str) : Str :=
  ((s.dropWhile (fun c => c == '/')).reverse.dropWhile (fun c => c == '/')).reverse

/-- `s.strip()` — remove leading and trailing whitespace. -/
def pyStrip (s : Str) : Str :=
  ((s.dropWhile Char.isWhitespace).reverse.dropWhile Char.isWhitespace).reverse

/-- Python substring membership `pat in s`. -/
def containsSeq (pat : Str) : Str → Bool
  | [] => pat.isEmpty
  | c :: t => pat.isPrefixOf (c :: t) || containsSeq pat t

/-- Python `s.split(sep)` for a one-character separator
(used as `response.text.split(chr(10))` on the robots.txt body). -/
def splitOnChar (sep : Char) (s : Str) : List Str :=
  s.foldr
    (fun ch acc =>
      if ch == sep then [] :: acc
      else
        match acc with
        | [] => [[ch]]
        | a :: rest => (ch :: a) :: rest)
    [[]]

/-- Python `s.split(c, 1)[1]` when `c` occurs in `s`: everything after the
first colon (used on a `sitemap:` directive line of robots.txt). -/
def afterFirstColon : Str → Str
  | [] => []
  | c :: t => if c == ':' then t else afterFirstColon t

/-! ### Sitemap URL formatting (`format_sitemap_url`, lines 93-107) -/

/-- Lines 98-100 of the source (also duplicated at lines 157-159 in
`check_and_get_sitemap_urls`): prepend a scheme when the URL starts with
neither `http://` nor `https://`. -/
def ensureScheme (u : Str) : Str :=
  if "http://".data.isPrefixOf u || "https://".data.isPrefixOf u then u
  else "https://".data ++ u

/-- `format_sitemap_url` (source lines 93-107): strip trailing slashes,
ensure a scheme, return unchanged when the lowered URL contains any of
`sitemap`, `sitemap.xml`, `sitemap_index.xml`, else append
`/sitemap.xml`. -/
def format_sitemap_url (url : Str) : Str :=
  let u := rstripSlash url
  let u := ensureScheme u
  if containsSeq "sitemap".data (lowerStr u)
      || containsSeq "sitemap.xml".data (lowerStr u)
      || containsSeq "sitemap_index.xml".data (lowerStr u) then u
  else u ++ "/sitemap.xml".data

/-- The same operation as described by the specification sentences behind
claim C8: strip trailing slashes, prepend `https://` when no scheme is
present, return unchanged when the result contains the substring
`sitemap` case-insensitively, else append `/sitemap.xml`.  Claim C8 is
settled by proving this equal to `format_sitemap_url`. -/
def format_sitemap_url_spec (url : Str) : Str :=
  let u := rstripSlash url
  let u := ensureScheme u
  if containsSeq "sitemap".data (lowerStr u) then u
  else u ++ "/sitemap.xml".data

/-! ### Sitemap resolution (`get_urls_from_sitemap`, lines 110-151) -/

/-- The outcome of fetching and parsing one sitemap URL.  `fetchError`
covers every path into the `except` handler of `get_urls_from_sitemap`:
network failure, a non-2xx status (`raise_for_status`), or an XML parse
error.  `doc rootTag locs` is a parsed document; each `loc` entry pairs
the `<loc>` text with the document that URL dereferences to, inlining the
fetch environment along the recursion of the source. -/
inductive SitemapDoc : Type where
  | fetchError : SitemapDoc
  | doc : Str → List (Str × SitemapDoc) → SitemapDoc

mutual

/-- `get_urls_from_sitemap` (source lines 110-151): on a fetch or parse
error return `[]`; when the root tag ends with `sitemapindex`, resolve
every child sitemap and concatenate the results in child order
(`urls.extend(sub_urls)` in a loop); otherwise return the `<loc>` texts
of the document itself. -/
def get_urls_from_sitemap : SitemapDoc → List Str
  | .fetchError => []
  | .doc rootTag locs =>
    if "sitemapindex".data.isSuffixOf rootTag then urlsOfChildren locs
    else locs.map Prod.fst

/-- The loop `for sub_sitemap_url in sitemap_urls: urls.extend(...)` of
the sitemap-index branch. -/
def urlsOfChildren : List (Str × SitemapDoc) → List Str
  | [] => []
  | (_, d) :: rest => get_urls_from_sitemap d ++ urlsOfChildren rest

end

/-! ### robots.txt fallback (`check_and_get_sitemap_urls`, lines 154-198) -/

/-- `line.lower().startswith("sitemap:")` (source line 188). -/
def isSitemapDirective (line : Str) : Bool :=
  "sitemap:".data.isPrefixOf (lowerStr line)

/-- `line.split(c, 1)[1].strip()` extracting the URL of a directive line
(source line 189). -/
def directiveUrl (line : Str) : Str :=
  pyStrip (afterFirstColon line)

/-- The robots.txt scanning loop (source lines 187-194): for each line
that starts case-insensitively with `sitemap:`, resolve the directive URL
as a direct sitemap; when the resolution is non-empty, return it together
with that URL and stop; otherwise keep scanning.  When no directive
resolves to a non-empty list, the originally guessed sitemap URL is
returned with the empty list. -/
def scanRobots (env : Str → SitemapDoc) (sitemap_url : Str) :
    List Str → Str × List Str
  | [] => (sitemap_url, [])
  | line :: rest =>
    if isSitemapDirective line then
      let alt := directiveUrl line
      let urls := get_urls_from_sitemap (env alt)
      if urls.isEmpty then scanRobots env sitemap_url rest
      else (alt, urls)
    else scanRobots env sitemap_url rest

/-- `check_and_get_sitemap_urls` (source lines 154-198).  `env` is the
HTTP-plus-XML layer mapping a sitemap URL to its fetched document;
`robots` is the robots.txt response body when the request returned
status 200 (`none` covers a non-200 status and a raised request error,
which the source handles identically by skipping the scan). -/
def check_and_get_sitemap_urls (env : Str → SitemapDoc) (robots : Option Str)
    (url : Str) : Str × List Str :=
  let base_url := ensureScheme (rstripSlash url)
  let sitemap_url := format_sitemap_url base_url
  let urls := get_urls_from_sitemap (env sitemap_url)
  if urls.isEmpty then
    match robots with
    | some body => scanRobots env sitemap_url (splitOnChar '\n' body)
    | none => (sitemap_url, urls)
  else (sitemap_url, urls)

/-- Written from the amended wording of claim C6: the first directive line
(in order) whose sitemap resolves to a non-empty URL list, if any.
Compared against `check_and_get_sitemap_urls` in the claim C6 theorem. -/
def firstResolvingDirective (env : Str → SitemapDoc) :
    List Str → Option (Str × List Str)
  | [] => none
  | line :: rest =>
    if isSitemapDirective line then
      let alt := directiveUrl line
      let urls := get_urls_from_sitemap (env alt)
      if urls.isEmpty then firstResolvingDirective env rest
      else some (alt, urls)
    else firstResolvingDirective env rest

/-! ### The crawl orchestrator (`crawl_parallel` and `process_url`,
lines 201-305) -/

/-- The observable behaviour of one attempt of the retry loop body
(source lines 232-275): the fetch client returns `result.success = True`
(after which the persistence sink either stores the content or raises),
returns `result.success = False`, or raises. -/
inductive AttemptResult : Type where
  | fetchSuccess (persistOk : Bool) : AttemptResult
  | fetchFailure : AttemptResult
  | fetchRaise : AttemptResult
deriving DecidableEq

/-- The events of one URL task, in program order: a call of
`crawler.arun` (`invoke`), an `asyncio.sleep(2)` between attempts
(`sleepDelay`), the increments of the two shared counters, and a call of
`process_and_store_document` (`store`). -/
inductive Event : Type where
  | invoke : Event
  | sleepDelay : Event
  | incProcessed : Event
  | incFailed : Event
  | store : Event
deriving DecidableEq

/-- The retry loop `for retry in range(max_retries)` of `process_url`
(source lines 231-275), producing the event trace of one URL.  On
`result.success` the source increments `processed_urls`, prints progress,
calls `process_and_store_document` and returns; when that call raises,
control lands in the same `except` arm as a fetch error, so the attempt
is retried (or, on the last attempt, `failed_urls` is incremented).  On a
failure result or a raised fetch error the source sleeps and retries, or
increments `failed_urls` on the last attempt. -/
def runAttempts (b : Nat → AttemptResult) (max_retries retry : Nat) :
    List Event :=
  if _h : retry < max_retries then
    match b retry with
    | .fetchSuccess true => [.invoke, .incProcessed, .store]
    | .fetchSuccess false =>
        .invoke :: .incProcessed :: .store ::
          (if retry < max_retries - 1 then
            .sleepDelay :: runAttempts b max_retries (retry + 1)
          else [.incFailed])
    | .fetchFailure =>
        .invoke ::
          (if retry < max_retries - 1 then
            .sleepDelay :: runAttempts b max_retries (retry + 1)
          else [.incFailed])
    | .fetchRaise =>
        .invoke ::
          (if retry < max_retries - 1 then
            .sleepDelay :: runAttempts b max_retries (retry + 1)
          else [.incFailed])
  else []
termination_by max_retries - retry
decreasing_by all_goals omega

/-- `process_url` (source lines 228-275): the whole retry loop for one
URL, starting at attempt index 0. -/
def process_url (b : Nat → AttemptResult) (max_retries : Nat) : List Event :=
  runAttempts b max_retries 0

/-- Number of occurrences of one event in a trace. -/
def countEv (e : Event) (es : List Event) : Nat :=
  es.countP (fun x => decide (x = e))

/-- The final `(processed_urls, failed_urls)` counters of `crawl_parallel`
(source lines 201-303).  `behaviorOf` gives the attempt behaviour of the
fetch client and persistence sink for each URL; `max_concurrent` bounds
concurrency but does not influence the final counters (every task runs to
completion under `asyncio.gather`), and the event-loop atomicity of the
`+= 1` updates makes the final counters the sums of the per-URL deltas. -/
def crawl_parallel (behaviorOf : Str → Nat → AttemptResult) (urls : List Str)
    (max_concurrent max_retries : Nat) : Nat × Nat :=
  ((urls.map (fun u =>
      countEv .incProcessed (process_url (behaviorOf u) max_retries))).sum,
   (urls.map (fun u =>
      countEv .incFailed (process_url (behaviorOf u) max_retries))).sum)

/-- The trace of a URL whose every attempt fails, for `m` attempts:
`invoke`, then a delay, repeated, with no delay after the last attempt,
and a single `incFailed` at the end.  Written from the wording of claim
C3 and compared against `process_url` there. -/
def allFailTrace : Nat → List Event
  | 0 => []
  | 1 => [.invoke, .incFailed]
  | n + 2 => .invoke :: .sleepDelay :: allFailTrace (n + 1)

/-- The trace of a URL whose first `k` attempts fail and whose next
attempt succeeds (and is stored): `k` times `invoke` plus delay, then a
final `invoke`, `incProcessed`, `store`.  Written from the wording of
claim C4 and compared against `process_url` there. -/
def failThenSuccessTrace : Nat → List Event
  | 0 => [.invoke, .incProcessed, .store]
  | k + 1 => .invoke :: .sleepDelay :: failThenSuccessTrace k

/-! ### The semaphore model (claim C2)

`crawl_parallel` creates `asyncio.Semaphore(max_concurrent)` (line 221)
and every task body is `async with semaphore: ...` (line 230).  One task
exists per URL.  A task is admitted into the guarded region only while
fewer than `max_concurrent` tasks hold the semaphore; inside the region
it performs its retry attempts; leaving the region releases the slot. -/

/-- The scheduling state of one URL task: not yet admitted by the
semaphore, inside the guarded region at attempt index `k`, or finished
(slot released). -/
inductive TaskState : Type where
  | pending : TaskState
  | inFlight : Nat → TaskState
  | done : TaskState

/-- Whether a task currently holds a semaphore slot. -/
def isInFlight : TaskState → Bool
  | .inFlight _ => true
  | _ => false

/-- Number of tasks currently inside the semaphore-guarded region. -/
def inFlightCount (ts : List TaskState) : Nat := ts.countP isInFlight

/-- One scheduler step of the crawl with semaphore capacity `c`:
a pending task is admitted when the gate has a free slot
(`asyncio.Semaphore` acquire succeeds only while holders `< c`), a task
inside the region moves to its next retry attempt, or a task leaves the
region and releases its slot. -/
inductive CrawlStep (c : Nat) : List TaskState → List TaskState → Prop where
  | acquire (l r : List TaskState)
      (hgate : inFlightCount (l ++ TaskState.pending :: r) < c) :
      CrawlStep c (l ++ TaskState.pending :: r)
        (l ++ TaskState.inFlight 0 :: r)
  | nextAttempt (l r : List TaskState) (k : Nat) :
      CrawlStep c (l ++ TaskState.inFlight k :: r)
        (l ++ TaskState.inFlight (k + 1) :: r)
  | release (l r : List TaskState) (k : Nat) :
      CrawlStep c (l ++ TaskState.inFlight k :: r)
        (l ++ TaskState.done :: r)

/-! ### Markdown filename construction (`save_markdown_file`,
lines 21-51) -/

/-- The character class kept by `re.sub(pat, underscore, ...)` where the
pattern is the complement of word characters, dash, underscore and dot
(source line 29); `Char.isAlphanum` models the regex word class over
ASCII. -/
def allowedFilenameChar (c : Char) : Bool :=
  c.isAlphanum || c == '-' || c == '_' || c == '.'

/-- One character of the `re.sub` replacement of source line 29. -/
def sanitizeChar (c : Char) : Char :=
  if allowedFilenameChar c then c else '_'

/-- Source lines 24-33: sanitize the string `domain + underscore + path`
(with `path` stripped of surrounding slashes, line 26) and truncate it to
200 characters when longer. -/
def sanitizedBase (domain path : Str) : Str :=
  let p := stripSlashBoth path
  let filename := (domain ++ '_' :: p).map sanitizeChar
  if filename.length > 200 then filename.take 200 else filename

/-- Source lines 24-37: the filename produced by `save_markdown_file`,
as a function of the parsed domain, path, and the strftime timestamp. -/
def save_markdown_filename (domain path timestamp : Str) : Str :=
  sanitizedBase domain path ++ '_' :: (timestamp ++ ".md".data)

/-! ### Helper lemmas about sitemap resolution -/

theorem urlsOfChildren_eq_flatten (locs : List (Str × SitemapDoc)) :
    urlsOfChildren locs =
      (locs.map (fun e => get_urls_from_sitemap e.2)).flatten := by
  induction locs with
  | nil => rfl
  | cons e rest ih =>
    obtain ⟨a, d⟩ := e
    simp [urlsOfChildren, ih]

theorem urlsOfChildren_append (xs ys : List (Str × SitemapDoc)) :
    urlsOfChildren (xs ++ ys) = urlsOfChildren xs ++ urlsOfChildren ys := by
  induction xs with
  | nil => rfl
  | cons e rest ih =>
    obtain ⟨a, d⟩ := e
    simp [urlsOfChildren, ih]

/-- Claim C5: for every sitemap document whose root tag ends with
`sitemapindex` and lists `k` child sitemaps where child `i` yields `n_i`
URLs, `get_urls_from_sitemap` returns exactly the concatenation of the
children's URL lists in child-document order (`Σ n_i` URLs in total); for
any root tag not ending in `sitemapindex` it returns the document's own
`loc` values directly. -/
theorem claim_C5 (rootTag : Str) (locs : List (Str × SitemapDoc)) :
    ("sitemapindex".data.isSuffixOf rootTag = true →
      get_urls_from_sitemap (SitemapDoc.doc rootTag locs) =
        (locs.map (fun e => get_urls_from_sitemap e.2)).flatten ∧
      (get_urls_from_sitemap (SitemapDoc.doc rootTag locs)).length =
        (locs.map (fun e => (get_urls_from_sitemap e.2).length)).sum) ∧
    ("sitemapindex".data.isSuffixOf rootTag = false →
      get_urls_from_sitemap (SitemapDoc.doc rootTag locs) =
        locs.map Prod.fst) := by
  constructor
  · intro h
    have heq : get_urls_from_sitemap (SitemapDoc.doc rootTag locs) =
        (locs.map (fun e => get_urls_from_sitemap e.2)).flatten := by
      rw [get_urls_from_sitemap, if_pos h, urlsOfChildren_eq_flatten]
    refine ⟨heq, ?_⟩
    rw [heq, List.length_flatten, List.map_map]
    rfl
  · intro h
    rw [get_urls_from_sitemap, if_neg (by simp [h])]

/-- Witness for claim C5: a sitemap index with two children holding three
and two URLs resolves to the five URLs in child-document order. -/
theorem claim_C5_witness :
    get_urls_from_sitemap (SitemapDoc.doc "xsitemapindex".data
      [("c1".data, SitemapDoc.doc "urlset".data
          [("p1".data, SitemapDoc.fetchError),
           ("p2".data, SitemapDoc.fetchError),
           ("p3".data, SitemapDoc.fetchError)]),
       ("c2".data, SitemapDoc.doc "urlset".data
          [("q1".data, SitemapDoc.fetchError),
           ("q2".data, SitemapDoc.fetchError)])]) =
      ["p1".data, "p2".data, "p3".data, "q1".data, "q2".data] :=
  ((claim_C5 "xsitemapindex".data
      [("c1".data, SitemapDoc.doc "urlset".data
          [("p1".data, SitemapDoc.fetchError),
           ("p2".data, SitemapDoc.fetchError),
           ("p3".data, SitemapDoc.fetchError)]),
       ("c2".data, SitemapDoc.doc "urlset".data
          [("q1".data, SitemapDoc.fetchError),
           ("q2".data, SitemapDoc.fetchError)])]).1 (by decide)).1.trans
    (by decide)

/-- Claim C7: for every error behaviour of the HTTP layer or XML parser,
`get_urls_from_sitemap` never raises to its caller — the error is caught
at the recursion level where it occurs (the `fetchError` document, which
models the `except` handler of source lines 149-151) and that branch
contributes exactly zero URLs, while the URLs of sibling branches are
still returned. -/
theorem claim_C7 (rootTag u : Str) (xs ys : List (Str × SitemapDoc))
    (hidx : "sitemapindex".data.isSuffixOf rootTag = true) :
    get_urls_from_sitemap SitemapDoc.fetchError = [] ∧
    get_urls_from_sitemap
        (SitemapDoc.doc rootTag (xs ++ (u, SitemapDoc.fetchError) :: ys)) =
      get_urls_from_sitemap (SitemapDoc.doc rootTag xs) ++
        get_urls_from_sitemap (SitemapDoc.doc rootTag ys) := by
  refine ⟨rfl, ?_⟩
  rw [get_urls_from_sitemap, if_pos hidx, get_urls_from_sitemap, if_pos hidx]
  conv_rhs => rw [get_urls_from_sitemap, if_pos hidx]
  rw [urlsOfChildren_append]
  simp [urlsOfChildren, get_urls_from_sitemap]

/-- Witness for claim C7: a failing middle child contributes nothing
while both siblings' URLs survive. -/
theorem claim_C7_witness :
    get_urls_from_sitemap (SitemapDoc.doc "xsitemapindex".data
      ([("c1".data, SitemapDoc.doc "urlset".data
          [("p1".data, SitemapDoc.fetchError)])] ++
        ("bad".data, SitemapDoc.fetchError) ::
          [("c2".data, SitemapDoc.doc "urlset".data
            [("q1".data, SitemapDoc.fetchError)])])) =
      ["p1".data, "q1".data] :=
  ((claim_C7 "xsitemapindex".data "bad".data
      [("c1".data, SitemapDoc.doc "urlset".data
        [("p1".data, SitemapDoc.fetchError)])]
      [("c2".data, SitemapDoc.doc "urlset".data
        [("q1".data, SitemapDoc.fetchError)])]
      (by decide)).2).trans (by decide)

/-! ### Claim C2: the semaphore bound -/

theorem inFlightCount_replicate_pending (n : Nat) :
    inFlightCount (List.replicate n TaskState.pending) = 0 := by
  induction n with
  | zero => rfl
  | succ k ih =>
    simp only [inFlightCount] at ih ⊢
    simp [List.replicate_succ, List.countP_cons, isInFlight, ih]

theorem crawlStep_bound {c : Nat} {a b : List TaskState}
    (hle : inFlightCount a ≤ c) (h : CrawlStep c a b) :
    inFlightCount b ≤ c := by
  cases h with
  | acquire l r hgate =>
    simp [inFlightCount, List.countP_append, List.countP_cons,
      isInFlight] at hgate ⊢
    omega
  | nextAttempt l r k =>
    simp [inFlightCount, List.countP_append, List.countP_cons,
      isInFlight] at hle ⊢
    omega
  | release l r k =>
    simp [inFlightCount, List.countP_append, List.countP_cons,
      isInFlight] at hle ⊢
    omega

/-- Claim C2: for every semaphore capacity `c` and every number `n` of
URLs handed to `crawl_parallel`, in every state the scheduler can reach
from the initial all-pending state, at most `c` tasks are inside the
semaphore-guarded region (invoking the fetch client) simultaneously. -/
theorem claim_C2 (c n : Nat) (ts : List TaskState)
    (h : Relation.ReflTransGen (CrawlStep c)
      (List.replicate n TaskState.pending) ts) :
    inFlightCount ts ≤ c := by
  induction h with
  | refl => simp [inFlightCount_replicate_pending]
  | tail _ hstep ih => exact crawlStep_bound ih hstep

/-- Witness for claim C2: after admitting one of two pending tasks under
capacity 2, the in-flight count is within the bound. -/
theorem claim_C2_witness :
    inFlightCount ([] ++ TaskState.inFlight 0 :: [TaskState.pending]) ≤ 2 :=
  claim_C2 2 2 _
    (Relation.ReflTransGen.single
      (CrawlStep.acquire [] [TaskState.pending] (by decide)))

/-! ### Claim C10: the markdown filename shape -/

/-- Claim C10: for every URL (every parsed domain and path) and every
15-character timestamp, the filename built by `save_markdown_file` is a
sanitized base — every character a word character, dash, underscore or
dot — truncated to at most 200 characters, followed by the timestamp and
the `.md` extension, so the whole filename has at most 219 characters and
ends in `.md`. -/
theorem claim_C10 (domain path timestamp : Str)
    (hts : timestamp.length = 15) :
    save_markdown_filename domain path timestamp =
      sanitizedBase domain path ++ '_' :: (timestamp ++ ".md".data) ∧
    (sanitizedBase domain path).length ≤ 200 ∧
    (∀ ch ∈ sanitizedBase domain path, allowedFilenameChar ch = true) ∧
    (save_markdown_filename domain path timestamp).length ≤ 219 ∧
    ".md".data.isSuffixOf (save_markdown_filename domain path timestamp)
      = true := by
  have hbase : (sanitizedBase domain path).length ≤ 200 := by
    rw [sanitizedBase]
    split
    · simp
    · omega
  have hchars : ∀ ch ∈ sanitizedBase domain path,
      allowedFilenameChar ch = true := by
    intro ch hch
    have hall : ∀ ch2 ∈ ((domain ++ '_' :: stripSlashBoth path).map
        sanitizeChar), allowedFilenameChar ch2 = true := by
      intro ch2 hch2
      obtain ⟨c0, _, hc0⟩ := List.mem_map.mp hch2
      subst hc0
      rw [sanitizeChar]
      split
      · assumption
      · decide
    rw [sanitizedBase] at hch
    revert hch
    split
    · intro hch
      exact hall ch (List.mem_of_mem_take hch)
    · intro hch
      exact hall ch hch
  refine ⟨rfl, hbase, hchars, ?_, ?_⟩
  · rw [save_markdown_filename, List.length_append, List.length_cons,
      List.length_append, hts]
    have hmd : (".md".data).length = 3 := rfl
    rw [hmd]
    omega
  · rw [save_markdown_filename, List.isSuffixOf_iff_suffix]
    have h1 : ".md".data <:+ timestamp ++ ".md".data :=
      List.suffix_append timestamp ".md".data
    have h2 : timestamp ++ ".md".data <:+
        sanitizedBase domain path ++ '_' :: (timestamp ++ ".md".data) := by
      refine List.IsSuffix.trans ?_
        (List.suffix_append (sanitizedBase domain path)
          ('_' :: (timestamp ++ ".md".data)))
      exact ⟨['_'], rfl⟩
    exact h1.trans h2

/-- Witness for claim C10: concrete domain, path and timestamp. -/
theorem claim_C10_witness :
    (save_markdown_filename "a.test".data "/docs/page/".data
      "20260101_120000".data).length ≤ 219 ∧
    ".md".data.isSuffixOf (save_markdown_filename "a.test".data
      "/docs/page/".data "20260101_120000".data) = true :=
  ⟨(claim_C10 "a.test".data "/docs/page/".data "20260101_120000".data
      (by decide)).2.2.2.1,
   (claim_C10 "a.test".data "/docs/page/".data "20260101_120000".data
      (by decide)).2.2.2.2⟩

/-! ### Helper lemmas about the retry loop -/

theorem runAttempts_eq_success (b : Nat → AttemptResult) (m j : Nat)
    (h : j < m) (hs : b j = .fetchSuccess true) :
    runAttempts b m j = [.invoke, .incProcessed, .store] := by
  rw [runAttempts, dif_pos h, hs]

theorem runAttempts_eq_successRaise (b : Nat → AttemptResult) (m j : Nat)
    (h : j < m) (hs : b j = .fetchSuccess false) :
    runAttempts b m j = .invoke :: .incProcessed :: .store ::
      (if j < m - 1 then .sleepDelay :: runAttempts b m (j + 1)
       else [.incFailed]) := by
  rw [runAttempts, dif_pos h, hs]

theorem runAttempts_eq_fail (b : Nat → AttemptResult) (m j : Nat)
    (h : j < m) (hf : b j = .fetchFailure ∨ b j = .fetchRaise) :
    runAttempts b m j = .invoke ::
      (if j < m - 1 then .sleepDelay :: runAttempts b m (j + 1)
       else [.incFailed]) := by
  rcases hf with hf | hf <;> rw [runAttempts, dif_pos h, hf]

theorem countEv_cons (e x : Event) (es : List Event) :
    countEv e (x :: es) = countEv e es + (if x = e then 1 else 0) := by
  simp [countEv, List.countP_cons]

theorem runAttempts_allFail (b : Nat → AttemptResult)
    (hb : ∀ k, b k = .fetchFailure ∨ b k = .fetchRaise) :
    ∀ n m j, m - j = n → j < m → runAttempts b m j = allFailTrace n := by
  intro n
  induction n with
  | zero => intro m j h1 h2; omega
  | succ n ih =>
    intro m j h1 h2
    rw [runAttempts_eq_fail b m j h2 (hb j)]
    by_cases hsplit : j < m - 1
    · rw [if_pos hsplit, ih m (j + 1) (by omega) (by omega)]
      cases n with
      | zero => omega
      | succ n2 => rfl
    · rw [if_neg hsplit]
      have hn : n = 0 := by omega
      subst hn
      rfl

theorem allFailTrace_counts (m : Nat) (hm : 1 ≤ m) :
    countEv .invoke (allFailTrace m) = m ∧
    countEv .incFailed (allFailTrace m) = 1 ∧
    countEv .incProcessed (allFailTrace m) = 0 := by
  induction m with
  | zero => exact absurd hm (by decide)
  | succ k ih =>
    cases k with
    | zero => refine ⟨rfl, rfl, rfl⟩
    | succ k2 =>
      obtain ⟨i1, i2, i3⟩ := ih (by omega)
      have hstep : allFailTrace (k2 + 2) =
          .invoke :: .sleepDelay :: allFailTrace (k2 + 1) := rfl
      refine ⟨?_, ?_, ?_⟩ <;>
        simp [hstep, countEv_cons, i1, i2, i3]

theorem runAttempts_failThenSuccess (b : Nat → AttemptResult) (m : Nat) :
    ∀ k j, j + k < m →
      (∀ i, i < k → b (j + i) = .fetchFailure ∨ b (j + i) = .fetchRaise) →
      b (j + k) = .fetchSuccess true →
      runAttempts b m j = failThenSuccessTrace k := by
  intro k
  induction k with
  | zero =>
    intro j hlt hfail hsucc
    exact (runAttempts_eq_success b m j (by omega)
      (by simpa using hsucc)).trans rfl
  | succ k ih =>
    intro j hlt hfail hsucc
    have h0 : b j = .fetchFailure ∨ b j = .fetchRaise := by
      simpa using hfail 0 (by omega)
    have hf2 : ∀ i, i < k →
        b (j + 1 + i) = .fetchFailure ∨ b (j + 1 + i) = .fetchRaise := by
      intro i hi
      have h3 := hfail (i + 1) (by omega)
      rwa [show j + (i + 1) = j + 1 + i by omega] at h3
    have hs2 : b (j + 1 + k) = .fetchSuccess true := by
      rw [show j + 1 + k = j + (k + 1) by omega]
      exact hsucc
    rw [runAttempts_eq_fail b m j (by omega) h0, if_pos (by omega),
      ih (j + 1) (by omega) hf2 hs2]
    rfl

theorem failThenSuccessTrace_counts (k : Nat) :
    countEv .invoke (failThenSuccessTrace k) = k + 1 ∧
    countEv .incProcessed (failThenSuccessTrace k) = 1 ∧
    countEv .incFailed (failThenSuccessTrace k) = 0 := by
  induction k with
  | zero => exact ⟨rfl, rfl, rfl⟩
  | succ k ih =>
    obtain ⟨i1, i2, i3⟩ := ih
    have hstep : failThenSuccessTrace (k + 1) =
        .invoke :: .sleepDelay :: failThenSuccessTrace k := rfl
    refine ⟨?_, ?_, ?_⟩ <;>
      simp [hstep, countEv_cons, i1, i2, i3]

/-- Claim C3 (amended with `maxRetries ≥ 1`): for every URL whose fetch
client always fails — reports `success = False` or raises on every call —
the retry loop of `process_url` invokes the client exactly `maxRetries`
times, with one fixed delay between consecutive attempts and none after
the last, then produces a single terminal failure for that URL (the
failed counter incremented exactly once, the processed counter not at
all) without raising past the retry boundary (the trace is total). -/
theorem claim_C3 (b : Nat → AttemptResult) (m : Nat) (hm : 1 ≤ m)
    (hb : ∀ k, b k = .fetchFailure ∨ b k = .fetchRaise) :
    process_url b m = allFailTrace m ∧
    countEv .invoke (process_url b m) = m ∧
    countEv .incFailed (process_url b m) = 1 ∧
    countEv .incProcessed (process_url b m) = 0 := by
  have htr : process_url b m = allFailTrace m :=
    runAttempts_allFail b hb m m 0 (by omega) (by omega)
  obtain ⟨h1, h2, h3⟩ := allFailTrace_counts m hm
  rw [htr]
  exact ⟨rfl, h1, h2, h3⟩

/-- Witness for claim C3: three always-failing attempts give the exact
trace invoke, delay, invoke, delay, invoke, failure. -/
theorem claim_C3_witness :
    process_url (fun _ => AttemptResult.fetchFailure) 3 =
      [Event.invoke, Event.sleepDelay, Event.invoke, Event.sleepDelay,
       Event.invoke, Event.incFailed] :=
  ((claim_C3 (fun _ => AttemptResult.fetchFailure) 3 (by decide)
      (fun _ => Or.inl rfl)).1).trans (by decide)

/-- Counterexample to claim C3 as stated: with `maxRetries = 0` the loop
`for retry in range(max_retries)` never runs its body, so although the
client is invoked exactly `maxRetries = 0` times, no terminal failure is
produced and the failed counter stays at zero rather than being
incremented once. -/
theorem claim_C3_cx :
    process_url (fun _ => AttemptResult.fetchFailure) 0 = [] ∧
    countEv Event.incFailed
      (process_url (fun _ => AttemptResult.fetchFailure) 0) = 0 := by
  have h : process_url (fun _ => AttemptResult.fetchFailure) 0 = [] := by
    rw [process_url, runAttempts]
    simp
  exact ⟨h, by rw [h]; rfl⟩

/-- Claim C4 (amended: the storing of the successful fetch must not
raise): for every URL whose fetch client fails on the first `k` attempts
with `k < maxRetries` and succeeds on attempt `k + 1`, where the
persistence sink stores the fetched content without raising, the final
outcome is success (processed counter incremented exactly once, failed
counter not at all), the client is invoked exactly `k + 1` times, and no
further attempts are made after the success. -/
theorem claim_C4 (b : Nat → AttemptResult) (m k : Nat) (hk : k < m)
    (hfail : ∀ i, i < k → b i = .fetchFailure ∨ b i = .fetchRaise)
    (hsucc : b k = .fetchSuccess true) :
    process_url b m = failThenSuccessTrace k ∧
    countEv .invoke (process_url b m) = k + 1 ∧
    countEv .incProcessed (process_url b m) = 1 ∧
    countEv .incFailed (process_url b m) = 0 := by
  have htr : process_url b m = failThenSuccessTrace k :=
    runAttempts_failThenSuccess b m k 0 (by omega)
      (by intro i hi; simpa using hfail i hi) (by simpa using hsucc)
  obtain ⟨h1, h2, h3⟩ := failThenSuccessTrace_counts k
  rw [htr]
  exact ⟨rfl, h1, h2, h3⟩

/-- Witness for claim C4: two failures then a stored success give exactly
three invocations and one processed increment. -/
theorem claim_C4_witness :
    process_url (fun i => if i < 2 then AttemptResult.fetchFailure
      else AttemptResult.fetchSuccess true) 3 =
      [Event.invoke, Event.sleepDelay, Event.invoke, Event.sleepDelay,
       Event.invoke, Event.incProcessed, Event.store] ∧
    countEv Event.invoke (process_url
      (fun i => if i < 2 then AttemptResult.fetchFailure
        else AttemptResult.fetchSuccess true) 3) = 3 :=
  ⟨((claim_C4 (fun i => if i < 2 then AttemptResult.fetchFailure
      else AttemptResult.fetchSuccess true) 3 2 (by decide) (by decide)
      (by decide)).1).trans (by decide),
   (claim_C4 (fun i => if i < 2 then AttemptResult.fetchFailure
      else AttemptResult.fetchSuccess true) 3 2 (by decide) (by decide)
      (by decide)).2.1⟩

/-- Counterexample to claim C4 as stated: with `maxRetries = 2` the fetch
client succeeds already on the first attempt (`k = 0`), but the
persistence sink raises while storing the content; the source catches
that in the same `except` arm as a fetch error and retries, so the client
is invoked twice (not `k + 1 = 1` times) and the processed counter is
incremented twice (not once). -/
theorem claim_C4_cx :
    countEv Event.invoke (process_url
      (fun i => if i = 0 then AttemptResult.fetchSuccess false
        else AttemptResult.fetchSuccess true) 2) = 2 ∧
    countEv Event.incProcessed (process_url
      (fun i => if i = 0 then AttemptResult.fetchSuccess false
        else AttemptResult.fetchSuccess true) 2) = 2 ∧
    ¬ countEv Event.invoke (process_url
      (fun i => if i = 0 then AttemptResult.fetchSuccess false
        else AttemptResult.fetchSuccess true) 2) = 0 + 1 := by
  have htr : process_url
      (fun i => if i = 0 then AttemptResult.fetchSuccess false
        else AttemptResult.fetchSuccess true) 2 =
      [Event.invoke, Event.incProcessed, Event.store, Event.sleepDelay,
       Event.invoke, Event.incProcessed, Event.store] := by
    rw [process_url, runAttempts_eq_successRaise _ 2 0 (by omega) rfl,
      if_pos (by omega), runAttempts_eq_success _ 2 1 (by omega) rfl]
  rw [htr]
  exact ⟨rfl, rfl, by decide⟩

/-! ### Claim C1: the counter invariant of the whole run -/

theorem runAttempts_delta_one (b : Nat → AttemptResult)
    (hp : ∀ k, b k ≠ .fetchSuccess false) :
    ∀ n m j, m - j = n → j < m →
      countEv .incProcessed (runAttempts b m j) +
        countEv .incFailed (runAttempts b m j) = 1 := by
  intro n
  induction n with
  | zero => intro m j h1 h2; omega
  | succ n ih =>
    intro m j h1 h2
    cases hb : b j with
    | fetchSuccess pOk =>
      cases pOk with
      | true => rw [runAttempts_eq_success b m j h2 hb]; rfl
      | false => exact absurd hb (hp j)
    | fetchFailure =>
      rw [runAttempts_eq_fail b m j h2 (Or.inl hb)]
      by_cases hs : j < m - 1
      · rw [if_pos hs]
        have hrec := ih m (j + 1) (by omega) (by omega)
        simpa [countEv_cons] using hrec
      · rw [if_neg hs]; rfl
    | fetchRaise =>
      rw [runAttempts_eq_fail b m j h2 (Or.inr hb)]
      by_cases hs : j < m - 1
      · rw [if_pos hs]
        have hrec := ih m (j + 1) (by omega) (by omega)
        simpa [countEv_cons] using hrec
      · rw [if_neg hs]; rfl

/-- Claim C1 (amended with `maxRetries ≥ 1` and a persistence sink that
never raises while storing): for every run of `crawl_parallel`, for every
list of URLs (including the empty list, where both counters are zero) and
every behaviour of the fetch client, the returned statistics satisfy
`processed_urls + failed_urls = len(urls)`. -/
theorem claim_C1 (behaviorOf : Str → Nat → AttemptResult) (urls : List Str)
    (max_concurrent max_retries : Nat) (hm : 1 ≤ max_retries)
    (hp : ∀ u k, behaviorOf u k ≠ .fetchSuccess false) :
    (crawl_parallel behaviorOf urls max_concurrent max_retries).1 +
      (crawl_parallel behaviorOf urls max_concurrent max_retries).2 =
      urls.length ∧
    crawl_parallel behaviorOf [] max_concurrent max_retries = (0, 0) := by
  constructor
  · induction urls with
    | nil => rfl
    | cons u rest ih =>
      have h1 : countEv .incProcessed
          (process_url (behaviorOf u) max_retries) +
          countEv .incFailed (process_url (behaviorOf u) max_retries) = 1 :=
        runAttempts_delta_one (behaviorOf u) (hp u) max_retries
          max_retries 0 (by omega) (by omega)
      simp only [crawl_parallel, List.map_cons, List.sum_cons] at ih ⊢
      simp only [List.length_cons]
      omega
  · rfl

/-- Witness for claim C1: two always-failing URLs with three retries give
counters summing to two. -/
theorem claim_C1_witness :
    (crawl_parallel (fun _ _ => AttemptResult.fetchFailure)
        ["a".data, "b".data] 5 3).1 +
      (crawl_parallel (fun _ _ => AttemptResult.fetchFailure)
        ["a".data, "b".data] 5 3).2 = 2 :=
  (claim_C1 (fun _ _ => AttemptResult.fetchFailure) ["a".data, "b".data]
    5 3 (by decide) (fun _ _ h => AttemptResult.noConfusion h)).1

/-- Counterexample to claim C1 as stated: (i) with one URL, one allowed
attempt and a persistence sink that raises while storing the successful
fetch, the run increments both counters for the same URL, so the sum is
two, not one; (ii) with `maxRetries = 0` neither counter is ever
incremented, so the sum is zero, not one. -/
theorem claim_C1_cx :
    ((crawl_parallel (fun _ _ => AttemptResult.fetchSuccess false)
        ["u".data] 5 1).1 +
      (crawl_parallel (fun _ _ => AttemptResult.fetchSuccess false)
        ["u".data] 5 1).2 ≠ 1) ∧
    ((crawl_parallel (fun _ _ => AttemptResult.fetchFailure)
        ["u".data] 5 0).1 +
      (crawl_parallel (fun _ _ => AttemptResult.fetchFailure)
        ["u".data] 5 0).2 ≠ 1) := by
  constructor
  · have h1 : process_url (fun _ => AttemptResult.fetchSuccess false) 1 =
        [Event.invoke, Event.incProcessed, Event.store, Event.incFailed] := by
      rw [process_url, runAttempts_eq_successRaise _ 1 0 (by omega) rfl,
        if_neg (by omega)]
    simp only [crawl_parallel, List.map_cons, List.map_nil, List.sum_cons,
      List.sum_nil, h1]
    decide
  · have h0 : process_url (fun _ => AttemptResult.fetchFailure) 0 = [] := by
      rw [process_url, runAttempts]
      simp
    simp only [crawl_parallel, List.map_cons, List.map_nil, List.sum_cons,
      List.sum_nil, h0]
    decide

/-! ### Claim C6: the robots.txt fallback -/

theorem scanRobots_eq (env : Str → SitemapDoc) (g : Str) :
    ∀ lines, scanRobots env g lines =
      (firstResolvingDirective env lines).getD (g, []) := by
  intro lines
  induction lines with
  | nil => rfl
  | cons line rest ih =>
    by_cases hd : isSitemapDirective line = true
    · by_cases he :
          (get_urls_from_sitemap (env (directiveUrl line))).isEmpty = true
      · simp [scanRobots, firstResolvingDirective, hd, he, ih]
      · simp [scanRobots, firstResolvingDirective, hd, he]
    · simp [scanRobots, firstResolvingDirective, hd, ih]

/-- Claim C6 (amended): when the direct sitemap fetch yields zero URLs,
`check_and_get_sitemap_urls` scans the robots.txt `sitemap:` directive
lines (case-insensitive) in order and resolves each one as a direct
sitemap URL until one yields a non-empty URL list, returning that URL and
list; when no directive resolves to a non-empty list, or robots.txt is
unavailable, it returns the originally guessed sitemap URL paired with an
empty list. -/
theorem claim_C6 (env : Str → SitemapDoc) (body url : Str)
    (hempty : get_urls_from_sitemap
      (env (format_sitemap_url (ensureScheme (rstripSlash url)))) = []) :
    check_and_get_sitemap_urls env (some body) url =
      (firstResolvingDirective env (splitOnChar '\n' body)).getD
        (format_sitemap_url (ensureScheme (rstripSlash url)), []) ∧
    check_and_get_sitemap_urls env none url =
      (format_sitemap_url (ensureScheme (rstripSlash url)), []) := by
  constructor
  · simp only [check_and_get_sitemap_urls, hempty, List.isEmpty_nil,
      if_pos]
    exact scanRobots_eq env _ _
  · simp only [check_and_get_sitemap_urls, hempty, List.isEmpty_nil,
      if_pos]

/-- Witness for claim C6: the direct guess resolves to nothing and the
single robots.txt directive resolves to one page URL, which is
returned. -/
theorem claim_C6_witness :
    check_and_get_sitemap_urls
      (fun u =>
        if u = "https://a.test/s1.xml".data then
          SitemapDoc.doc "urlset".data
            [("https://a.test/p1".data, SitemapDoc.fetchError)]
        else SitemapDoc.fetchError)
      (some "Sitemap: https://a.test/s1.xml".data) "a.test".data =
      ("https://a.test/s1.xml".data, ["https://a.test/p1".data]) :=
  ((claim_C6
      (fun u =>
        if u = "https://a.test/s1.xml".data then
          SitemapDoc.doc "urlset".data
            [("https://a.test/p1".data, SitemapDoc.fetchError)]
        else SitemapDoc.fetchError)
      "Sitemap: https://a.test/s1.xml".data "a.test".data
      (by decide)).1).trans (by decide)

/-- Fetch environment of the counterexample to claim C6: the guessed
sitemap URL does not resolve, the first robots.txt directive resolves to
an empty URL set, and the second directive resolves to one page URL. -/
def robotsEnvCx : Str → SitemapDoc := fun u =>
  if u = "https://a.test/s1.xml".data then SitemapDoc.doc "urlset".data []
  else if u = "https://a.test/s2.xml".data then
    SitemapDoc.doc "urlset".data
      [("https://a.test/p1".data, SitemapDoc.fetchError)]
  else SitemapDoc.fetchError

/-- robots.txt body of the counterexample to claim C6: two `Sitemap:`
directive lines. -/
def robotsBodyCx : Str :=
  "Sitemap: https://a.test/s1.xml\nSitemap: https://a.test/s2.xml".data

/-- Counterexample to claim C6 as stated: the first robots.txt `sitemap:`
directive resolves to an empty list, and instead of stopping there (first
match wins, no further directives consulted) and returning the originally
guessed sitemap URL with an empty list, the source keeps scanning and
returns the second directive's URL and its non-empty URL list. -/
theorem claim_C6_cx :
    isSitemapDirective "Sitemap: https://a.test/s1.xml".data = true ∧
    get_urls_from_sitemap
      (robotsEnvCx (directiveUrl "Sitemap: https://a.test/s1.xml".data))
      = [] ∧
    check_and_get_sitemap_urls robotsEnvCx (some robotsBodyCx)
      "a.test".data =
      ("https://a.test/s2.xml".data, ["https://a.test/p1".data]) ∧
    ¬ check_and_get_sitemap_urls robotsEnvCx (some robotsBodyCx)
      "a.test".data =
      (format_sitemap_url (ensureScheme (rstripSlash "a.test".data)), [])
    := by decide

/-! ### Helper lemmas about substrings and stripping -/

theorem containsSeq_mono (p q s : Str)
    (h : containsSeq (p ++ q) s = true) : containsSeq p s = true := by
  induction s with
  | nil =>
    rw [containsSeq] at h ⊢
    cases p with
    | nil => rfl
    | cons a t => simp at h
  | cons c t ih =>
    simp only [containsSeq, Bool.or_eq_true] at h ⊢
    rcases h with h | h
    · left
      rw [List.isPrefixOf_iff_prefix] at h ⊢
      exact (List.prefix_append p q).trans h
    · exact Or.inr (ih h)

theorem containsSeq_append_right (pat s t : Str)
    (h : containsSeq pat t = true) : containsSeq pat (s ++ t) = true := by
  induction s with
  | nil => simpa using h
  | cons c s2 ih =>
    simp only [List.cons_append, containsSeq, Bool.or_eq_true]
    exact Or.inr ih

theorem isPrefixOf_append_right (p u t : Str)
    (h : p.isPrefixOf u = true) : p.isPrefixOf (u ++ t) = true := by
  rw [List.isPrefixOf_iff_prefix] at h ⊢
  exact h.trans (List.prefix_append u t)

theorem dropWhile_dropWhile (p : Char → Bool) (l : Str) :
    (l.dropWhile p).dropWhile p = l.dropWhile p := by
  induction l with
  | nil => rfl
  | cons a t ih =>
    cases hp : p a with
    | true => simp [List.dropWhile_cons, hp, ih]
    | false => simp [List.dropWhile_cons, hp]

theorem rstripSlash_idem (s : Str) :
    rstripSlash (rstripSlash s) = rstripSlash s := by
  simp [rstripSlash, dropWhile_dropWhile]

theorem dropWhile_append_of_ne_nil (p : Char → Bool) (l r : Str)
    (h : l.dropWhile p ≠ []) :
    (l.dropWhile p ++ r).dropWhile p = l.dropWhile p ++ r := by
  induction l with
  | nil => exact absurd rfl h
  | cons a t ih =>
    cases hp : p a with
    | true =>
      rw [List.dropWhile_cons] at h ⊢
      simp only [hp, if_true] at h ⊢
      exact ih h
    | false =>
      simp [List.dropWhile_cons, hp]

theorem rstripSlash_append_of_ne_nil (s t : Str)
    (h : rstripSlash t ≠ []) :
    rstripSlash (s ++ rstripSlash t) = s ++ rstripSlash t := by
  have hrev : (rstripSlash t).reverse =
      t.reverse.dropWhile (fun c => c == '/') := by
    simp [rstripSlash]
  have hne : t.reverse.dropWhile (fun c => c == '/') ≠ [] := by
    intro hnil
    exact h (by simp [rstripSlash, hnil])
  conv_lhs => rw [rstripSlash]
  rw [List.reverse_append, hrev,
    dropWhile_append_of_ne_nil _ _ _ hne, List.reverse_append,
    List.reverse_reverse, ← hrev, List.reverse_reverse]

theorem rstripSlash_snoc (s : Str) (c : Char) (hc : (c == '/') = false) :
    rstripSlash (s ++ [c]) = s ++ [c] := by
  simp [rstripSlash, List.dropWhile_cons, hc]

/-- The membership test of source line 103 collapses to the single
substring test for `sitemap`, because the other two listed needles
contain `sitemap` as a prefix. -/
theorem sitemapCond_eq (v : Str) :
    (containsSeq "sitemap".data (lowerStr v)
      || containsSeq "sitemap.xml".data (lowerStr v)
      || containsSeq "sitemap_index.xml".data (lowerStr v)) =
    containsSeq "sitemap".data (lowerStr v) := by
  cases hA : containsSeq "sitemap".data (lowerStr v) with
  | true => simp
  | false =>
    cases hB : containsSeq "sitemap.xml".data (lowerStr v) with
    | true =>
      have hsplit : "sitemap.xml".data = "sitemap".data ++ ".xml".data := by
        decide
      rw [hsplit] at hB
      rw [containsSeq_mono _ _ _ hB] at hA
      cases hA
    | false =>
      cases hC : containsSeq "sitemap_index.xml".data (lowerStr v) with
      | true =>
        have hsplit : "sitemap_index.xml".data =
            "sitemap".data ++ "_index.xml".data := by decide
        rw [hsplit] at hC
        rw [containsSeq_mono _ _ _ hC] at hA
        cases hA
      | false => simp

/-- Claim C8: for every input string, `format_sitemap_url` strips all
trailing slashes, prepends `https://` when the URL starts with neither
`http://` nor `https://`, returns the result unchanged when it contains
the substring `sitemap` case-insensitively anywhere, and otherwise
returns the result with `/sitemap.xml` appended — stated as equality with
`format_sitemap_url_spec`, which is written from exactly those words. -/
theorem claim_C8 (url : Str) :
    format_sitemap_url url = format_sitemap_url_spec url := by
  show (if containsSeq "sitemap".data
          (lowerStr (ensureScheme (rstripSlash url)))
        || containsSeq "sitemap.xml".data
          (lowerStr (ensureScheme (rstripSlash url)))
        || containsSeq "sitemap_index.xml".data
          (lowerStr (ensureScheme (rstripSlash url))) then
      ensureScheme (rstripSlash url)
    else ensureScheme (rstripSlash url) ++ "/sitemap.xml".data) =
    (if containsSeq "sitemap".data
          (lowerStr (ensureScheme (rstripSlash url))) then
      ensureScheme (rstripSlash url)
    else ensureScheme (rstripSlash url) ++ "/sitemap.xml".data)
  rw [sitemapCond_eq]

/-! ### Claim C9: idempotence of `format_sitemap_url` -/

theorem ensureScheme_prefix_cases (u : Str) :
    "http://".data.isPrefixOf (ensureScheme u) = true ∨
    "https://".data.isPrefixOf (ensureScheme u) = true := by
  rw [ensureScheme]
  split
  · rename_i h
    exact (Bool.or_eq_true _ _).mp h
  · right
    rw [List.isPrefixOf_iff_prefix]
    exact List.prefix_append _ _

theorem ensureScheme_of_scheme (v : Str)
    (h : "http://".data.isPrefixOf v = true ∨
      "https://".data.isPrefixOf v = true) :
    ensureScheme v = v := by
  have hc : ("http://".data.isPrefixOf v
      || "https://".data.isPrefixOf v) = true := by
    rcases h with h | h <;> simp [h]
  rw [ensureScheme, if_pos hc]

theorem rstripSlash_ensureScheme_cases (u : Str) :
    rstripSlash (ensureScheme (rstripSlash u)) =
      ensureScheme (rstripSlash u) ∨
    ensureScheme (rstripSlash u) = "https://".data := by
  rw [ensureScheme]
  split
  · exact Or.inl (rstripSlash_idem u)
  · by_cases hnil : rstripSlash u = []
    · rw [hnil]
      exact Or.inr (by simp)
    · exact Or.inl (rstripSlash_append_of_ne_nil "https://".data u hnil)

/-- Claim C9: `format_sitemap_url` is idempotent — its output always
carries a scheme, never ends in a slash, and contains the substring
`sitemap`, so a second application returns it unchanged. -/
theorem claim_C9 (url : Str) :
    format_sitemap_url (format_sitemap_url url) = format_sitemap_url url
    := by
  have hmain : ∀ v : Str, rstripSlash v = v →
      ("http://".data.isPrefixOf v = true ∨
        "https://".data.isPrefixOf v = true) →
      containsSeq "sitemap".data (lowerStr v) = true →
      format_sitemap_url v = v := by
    intro v h1 h2 h3
    show (if containsSeq "sitemap".data
            (lowerStr (ensureScheme (rstripSlash v)))
          || containsSeq "sitemap.xml".data
            (lowerStr (ensureScheme (rstripSlash v)))
          || containsSeq "sitemap_index.xml".data
            (lowerStr (ensureScheme (rstripSlash v))) then
        ensureScheme (rstripSlash v)
      else ensureScheme (rstripSlash v) ++ "/sitemap.xml".data) = v
    rw [h1, ensureScheme_of_scheme v h2, if_pos (by simp [h3])]
  by_cases hc : (containsSeq "sitemap".data
        (lowerStr (ensureScheme (rstripSlash url)))
      || containsSeq "sitemap.xml".data
        (lowerStr (ensureScheme (rstripSlash url)))
      || containsSeq "sitemap_index.xml".data
        (lowerStr (ensureScheme (rstripSlash url)))) = true
  · have hform : format_sitemap_url url = ensureScheme (rstripSlash url)
        := by
      show (if containsSeq "sitemap".data
              (lowerStr (ensureScheme (rstripSlash url)))
            || containsSeq "sitemap.xml".data
              (lowerStr (ensureScheme (rstripSlash url)))
            || containsSeq "sitemap_index.xml".data
              (lowerStr (ensureScheme (rstripSlash url))) then
          ensureScheme (rstripSlash url)
        else ensureScheme (rstripSlash url) ++ "/sitemap.xml".data) =
        ensureScheme (rstripSlash url)
      rw [if_pos hc]
    have hA : containsSeq "sitemap".data
        (lowerStr (ensureScheme (rstripSlash url))) = true := by
      rw [← sitemapCond_eq]
      exact hc
    have hstrip : rstripSlash (ensureScheme (rstripSlash url)) =
        ensureScheme (rstripSlash url) := by
      rcases rstripSlash_ensureScheme_cases url with h | h
      · exact h
      · rw [h] at hA
        exact absurd hA (by decide)
    rw [hform]
    exact hmain _ hstrip (ensureScheme_prefix_cases (rstripSlash url)) hA
  · have hform : format_sitemap_url url =
        ensureScheme (rstripSlash url) ++ "/sitemap.xml".data := by
      show (if containsSeq "sitemap".data
              (lowerStr (ensureScheme (rstripSlash url)))
            || containsSeq "sitemap.xml".data
              (lowerStr (ensureScheme (rstripSlash url)))
            || containsSeq "sitemap_index.xml".data
              (lowerStr (ensureScheme (rstripSlash url))) then
          ensureScheme (rstripSlash url)
        else ensureScheme (rstripSlash url) ++ "/sitemap.xml".data) =
        ensureScheme (rstripSlash url) ++ "/sitemap.xml".data
      rw [if_neg hc]
    have hstrip : rstripSlash
        (ensureScheme (rstripSlash url) ++ "/sitemap.xml".data) =
        ensureScheme (rstripSlash url) ++ "/sitemap.xml".data := by
      have hxml : "/sitemap.xml".data = "/sitemap.xm".data ++ ['l'] := by
        decide
      rw [hxml, ← List.append_assoc]
      exact rstripSlash_snoc _ 'l' (by decide)
    have hcont : containsSeq "sitemap".data
        (lowerStr (ensureScheme (rstripSlash url) ++ "/sitemap.xml".data))
        = true := by
      simp only [lowerStr, List.map_append]
      exact containsSeq_append_right _ _ _ (by decide)
    have hscheme :
        ("http://".data.isPrefixOf
            (ensureScheme (rstripSlash url) ++ "/sitemap.xml".data)
          = true) ∨
        ("https://".data.isPrefixOf
            (ensureScheme (rstripSlash url) ++ "/sitemap.xml".data)
          = true) := by
      rcases ensureScheme_prefix_cases (rstripSlash url) with h | h
      · exact Or.inl (isPrefixOf_append_right _ _ _ h)
      · exact Or.inr (isPrefixOf_append_right _ _ _ h)
    rw [hform]
    exact hmain _ hstrip hscheme hcont

end Crawler
